import Mathlib

/-!
Formal model of the Mirror-Downloader server.

The sources are two variants of the same Express + Socket.IO server:
`src/server.js` (local serving only) and `src/unnamed/part_001` (the
Google Drive variant).  Pure logic is translated directly; the platform
pieces the code calls out to (WHATWG `new URL`, `decodeURIComponent`,
`uuidv4`, `fs.statSync`, wall-clock speed strings, the network) enter as
explicit inputs or as faithful models noted at each definition.
-/

/-! ## Filename resolver (`getFilename`, src/server.js lines 100-123) -/

/-- The double-quote character. -/
def quoteD : Char := Char.ofNat 34

/-- The single-quote character. -/
def quoteS : Char := Char.ofNat 39

/-- Model of the literal prefix test for the characters `filename` used by
the regex `/filename[^;=\n]*=((['"]).*?\2|[^;\n]*)/`: returns the remainder
after the eight literal characters when they are present. -/
def afterFilenameLit : List Char → Option (List Char)
  | 'f' :: 'i' :: 'l' :: 'e' :: 'n' :: 'a' :: 'm' :: 'e' :: rest => some rest
  | _ => none

/-- Scan for the closing quote of the regex alternative `(['"]).*?\2`:
`.` does not match a newline and `*?` is non-greedy, so the content runs to
the first occurrence of the opening quote, failing on a newline or at the
end of the input.  Returns the content without the quotes. -/
def findClose (q : Char) : List Char → Option (List Char)
  | [] => none
  | c :: cs =>
      if c == q then some []
      else if c == '\n' then none
      else (findClose q cs).map (fun l => c :: l)

/-- The unquoted regex alternative `[^;\n]*` (greedy). -/
def takeUnquoted (l : List Char) : List Char :=
  l.takeWhile (fun c => !(c == ';' || c == '\n'))

/-- Capture group 1 of the regex, evaluated after the `=`: the quoted
alternative (including its quotes, exactly as the regex captures them)
when it succeeds, else the unquoted alternative. -/
def matchGroup (tail : List Char) : List Char :=
  match tail with
  | [] => []
  | q :: rest =>
      if q == quoteD || q == quoteS then
        match findClose q rest with
        | some content => q :: content ++ [q]
        | none => takeUnquoted (q :: rest)
      else takeUnquoted (q :: rest)

/-- After the literal `filename`: the regex part `[^;=\n]*=` (greedy skip of
characters other than `;`, `=`, newline, then a literal `=`), followed by
the capture group.  `none` when no `=` arrives before a stop character. -/
def groupAt (rest : List Char) : Option (List Char) :=
  match rest.dropWhile (fun c => !(c == ';' || c == '=' || c == '\n')) with
  | '=' :: tail => some (matchGroup tail)
  | _ => none

/-- `String.prototype.match` with the filename regex: the match attempt is
made at every index from the left, and the first index where the whole
pattern matches yields capture group 1. -/
def cdScan : List Char → Option (List Char)
  | [] => none
  | c :: rest =>
      match afterFilenameLit (c :: rest) with
      | some after =>
          match groupAt after with
          | some g => some g
          | none => cdScan rest
      | none => cdScan rest

/-- The post-processing `match[1].replace(/['"]/g, '')`: every quote
character (single or double, anywhere in the string) is removed. -/
def stripQuotesList (l : List Char) : List Char :=
  l.filter (fun c => !(c == quoteD || c == quoteS))

/-- Header tier of `getFilename` (src/server.js lines 102-108): the
`content-disposition` header value, when present and truthy, is run through
the regex; a truthy (non-empty) capture group is returned with all quote
characters stripped. -/
def headerFilename : Option String → Option String
  | none => none
  | some s =>
      if s.data = [] then none
      else
        match cdScan s.data with
        | none => none
        | some g => if g = [] then none else some (String.mk (stripQuotesList g))

/-- Node `path.basename` (posix): trailing slashes are dropped, then the
part after the last remaining slash is returned; a path of only slashes
gives `/`, the empty path gives the empty string. -/
def basenamePosix (p : String) : String :=
  let r := p.data.reverse
  let r1 := r.dropWhile (fun c => c == '/')
  if r1 = [] then
    if r = [] then "" else "/"
  else
    String.mk ((r1.takeWhile (fun c => !(c == '/'))).reverse)

/-- Value of one hexadecimal digit, `none` for a non-hex character. -/
def hexDigitVal (c : Char) : Option Nat :=
  if '0' ≤ c ∧ c ≤ '9' then some (c.toNat - 48)
  else if 'a' ≤ c ∧ c ≤ 'f' then some (c.toNat - 87)
  else if 'A' ≤ c ∧ c ≤ 'F' then some (c.toNat - 55)
  else none

/-- A percent escape `%XY` at the head of the input: the byte value and the
remainder. -/
def readPctByte : List Char → Option (Nat × List Char)
  | '%' :: a :: b :: rest =>
      match hexDigitVal a, hexDigitVal b with
      | some va, some vb => some (16 * va + vb, rest)
      | _, _ => none
  | _ => none

/-- Reads `n` UTF-8 continuation bytes, each written as a percent escape,
accumulating the code point bits. -/
def readContBytes : Nat → Nat → List Char → Option (Nat × List Char)
  | 0, acc, rest => some (acc, rest)
  | n + 1, acc, cs =>
      match readPctByte cs with
      | some (b, rest) =>
          if 128 ≤ b ∧ b ≤ 191 then readContBytes n (64 * acc + (b - 128)) rest
          else none
      | none => none

/-- Decodes one UTF-8 sequence of percent escapes per ECMA-262 `Decode`:
an ASCII byte stands alone; a lead byte demands its continuation escapes
immediately after, and overlong encodings, surrogates and out-of-range
code points are rejected. -/
def decodeEscape (cs : List Char) : Option (Char × List Char) :=
  match readPctByte cs with
  | none => none
  | some (b, rest) =>
      if b ≤ 127 then some (Char.ofNat b, rest)
      else if 194 ≤ b ∧ b ≤ 223 then
        match readContBytes 1 (b - 192) rest with
        | some (cp, rest2) => some (Char.ofNat cp, rest2)
        | none => none
      else if 224 ≤ b ∧ b ≤ 239 then
        match readContBytes 2 (b - 224) rest with
        | some (cp, rest2) =>
            if 2048 ≤ cp ∧ ¬(55296 ≤ cp ∧ cp ≤ 57343) then some (Char.ofNat cp, rest2)
            else none
        | none => none
      else if 240 ≤ b ∧ b ≤ 244 then
        match readContBytes 3 (b - 240) rest with
        | some (cp, rest2) =>
            if 65536 ≤ cp ∧ cp ≤ 1114111 then some (Char.ofNat cp, rest2) else none
        | none => none
      else none

/-- Fuel-indexed main loop of `decodeURIComponent`: characters other than
`%` pass through unchanged, `%` starts an escape sequence.  Any failure is
the JavaScript `URIError`.  Each step consumes at least one character, so
fuel equal to the length suffices. -/
def percentDecodeAux : Nat → List Char → Option (List Char)
  | _, [] => some []
  | 0, _ :: _ => none
  | fuel + 1, c :: rest =>
      if c == '%' then
        match decodeEscape (c :: rest) with
        | some (ch, rest2) =>
            match percentDecodeAux fuel rest2 with
            | some tail => some (ch :: tail)
            | none => none
        | none => none
      else
        match percentDecodeAux fuel rest with
        | some tail => some (c :: tail)
        | none => none

/-- Model of the platform `decodeURIComponent`: `none` models a thrown
`URIError`, which the source catches (src/server.js lines 111-119). -/
def decodeURIComponentM (s : String) : Option String :=
  (percentDecodeAux s.length s.data).map String.mk

/-- URL tier of `getFilename` (src/server.js lines 110-119).  The input is
the `pathname` the platform URL parser produced, or `none` when `new URL`
threw; the guard and the decode are inside the same `try`, so a decode
failure also falls through. -/
def urlFilename : Option String → Option String
  | none => none
  | some pn =>
      let f := basenamePosix pn
      if f = "" ∨ f = "/" then none
      else decodeURIComponentM f

/-- One hexadecimal digit character (lowercase, as `uuidv4` renders). -/
def toHexDigit (n : Nat) : Char :=
  if n < 10 then Char.ofNat (48 + n) else Char.ofNat (87 + n)

/-- Model of `uuidv4().substring(0, 8)`: the first eight hex characters of
a fresh random identifier, derived here from a seed supplied as input. -/
def uuid8 (seed : Nat) : String :=
  String.mk ((List.range 8).map (fun i => toHexDigit (seed / 16 ^ (7 - i) % 16)))

/-- The filename resolver `getFilename(url, headers)` of src/server.js
lines 100-123 (identical in src/unnamed/part_001 lines 239-262).  The
platform results enter as inputs: `cd` is `headers['content-disposition']`,
`pathnameO` is `new URL(url).pathname` (or `none` when parsing threw) and
`seed` drives the fresh `uuidv4`. -/
def getFilename (cd : Option String) (pathnameO : Option String) (seed : Nat) : String :=
  match headerFilename cd with
  | some n => n
  | none =>
      match urlFilename pathnameO with
      | some n => n
      | none => "download_" ++ uuid8 seed

/-! ## Download engine (socket `start-download` handler)

`src/server.js` lines 129-278 and `src/unnamed/part_001` lines 268-482.
A run of the handler is parameterized by what the outside world did: the
announced size (the `content-length` of the HEAD probe, or of the GET
response when the probe gave none, lines 140-150 and 176-178), the chunk
lengths the GET body delivered to the `data` listener before the writer
terminated, and whether the write stream ended in `finish` or `error`.
The announced size and the delivered bytes are independent inputs because
they come from different responses, so they may disagree.  Wall-clock
speed strings are abstracted as an oracle indexed by chunk number. -/

/-- Socket.IO events the handler emits to the originating channel.
`complete` carries the optional `source`, `driveLink` and `warning` fields
of the Google Drive variant; the local variant leaves them absent. -/
inductive Event where
  | started (downloadId : String) (filename : String) (fileSize : Nat)
  | progress (downloadId : String) (downloadedBytes : Nat) (fileSize : Nat)
      (pct : Int) (speed : String)
  | complete (downloadId : String) (filename : String) (fileSize : Nat)
      (downloadUrl : String) (source : Option String) (driveLink : Option String)
      (warning : Option String)
  | error (downloadId : String) (message : String)
deriving DecidableEq

/-- Status strings stored in `activeDownloads` entries.  The code writes
only `downloading` and `completed`; `failed` is included so claims about
it can be stated. -/
inductive Status where
  | downloading
  | completed
  | failed
deriving DecidableEq

/-- One `activeDownloads` entry. -/
structure Entry where
  filename : String
  filePath : String
  fileSize : Nat
  downloadedBytes : Nat
  status : Status
  downloadUrl : Option String
  driveFileId : Option String
deriving DecidableEq

/-- Inputs of one post-setup run of the handler (the HEAD probe and the
GET request both already resolved). -/
structure Run where
  downloadId : String
  filename : String
  uniqueFilename : String
  /-- Announced total, `parseInt(headers['content-length']) || 0`;
  `0` encodes unknown. -/
  fileSize : Nat
  /-- Byte lengths of the chunks the `data` listener observed. -/
  chunks : List Nat
  /-- Whether the write stream ended with `error` instead of `finish`. -/
  writeFails : Bool
  /-- Oracle for the human-readable speed string of chunk `i`. -/
  speeds : Nat → String

/-- The percent computation of the `data` listener (src/server.js line
208): `fileSize > 0 ? Math.round(downloadedBytes / fileSize * 100) : -1`,
with `Math.round` as exact round-half-up on the rational value. -/
def progressOf (downloaded fileSize : Nat) : Int :=
  if 0 < fileSize then (((200 * downloaded + fileSize) / (2 * fileSize) : Nat) : Int)
  else -1

/-- The `data` listener fold (src/server.js lines 206-229): accumulate the
chunk into `downloadedBytes`, compute the percent, and emit a progress
event exactly when the integer percent changed or the size is unknown
(`progress !== lastProgress || progress === -1`); `lastProgress` starts
at `0`. -/
def progressEvents (id : String) (fileSize : Nat) (speeds : Nat → String) :
    List Nat → Nat → Nat → Int → List Event
  | [], _, _, _ => []
  | c :: cs, i, d0, lastP =>
      let d := d0 + c
      let p := progressOf d fileSize
      if p ≠ lastP ∨ p = -1 then
        Event.progress id d fileSize p (speeds i) ::
          progressEvents id fileSize speeds cs (i + 1) d p
      else
        progressEvents id fileSize speeds cs (i + 1) d lastP

/-- Observable outcome of a run: events emitted to the channel in order,
the final `activeDownloads` state for this id (`none` = deleted), and the
paths handed to `fs.unlink`. -/
structure EngineOut where
  events : List Event
  entry : Option Entry
  unlinked : List String

/-- `path.join(downloadsDir, uniqueFilename)`. -/
def mkFilePath (r : Run) : String := "downloads/" ++ r.uniqueFilename

/-- The entry registered before the first byte (src/server.js lines
192-198). -/
def initialEntry (r : Run) : Entry :=
  { filename := r.filename, filePath := mkFilePath r, fileSize := r.fileSize,
    downloadedBytes := 0, status := Status.downloading, downloadUrl := none,
    driveFileId := none }

/-- Size `fs.statSync(filePath).size` observed in the `finish` handler:
the writer received exactly the piped chunks, so the stat equals their
sum. -/
def statSize (r : Run) : Nat := r.chunks.sum

/-- One post-setup run of the local-variant handler (src/server.js lines
184-268): register, emit `download-started`, stream the chunks, then
either the `finish` handler (stat, update entry, emit `download-complete`)
or the `error` handler (emit `download-error`, unlink, delete the
entry). -/
def runTransfer (r : Run) : EngineOut :=
  let ps := progressEvents r.downloadId r.fileSize r.speeds r.chunks 0 0 0
  let head := Event.started r.downloadId r.filename r.fileSize
  if r.writeFails then
    { events := head :: ps ++ [Event.error r.downloadId "Failed to save file"],
      entry := none,
      unlinked := [mkFilePath r] }
  else
    let url := "/downloads/" ++ r.uniqueFilename
    { events := head :: ps ++
        [Event.complete r.downloadId r.filename (statSize r) url none none none],
      entry := some { initialEntry r with
        downloadedBytes := statSize r, status := Status.completed,
        downloadUrl := some url },
      unlinked := [] }

/-- Whole-handler input: either setup (HEAD probe fallback plus GET)
succeeded and a run happened, or the outer `catch` fired
(src/server.js lines 270-277). -/
inductive Setup where
  | ok (r : Run)
  | failSetup (downloadId : String) (message : Option String)

/-- `error.message || 'Failed to download file'` (a missing or empty
message falls back to the generic text). -/
def setupErrorMessage : Option String → String
  | some m => if m = "" then "Failed to download file" else m
  | none => "Failed to download file"

/-- The full `start-download` handler of src/server.js. -/
def startDownload : Setup → EngineOut
  | Setup.ok r => runTransfer r
  | Setup.failSetup id m =>
      { events := [Event.error id (setupErrorMessage m)], entry := none, unlinked := [] }

/-- Inputs of one post-setup run of the Google Drive variant: the base run
plus whether `driveClient && driveFolderId` were initialized, and the
outcome of `uploadToGoogleDrive` (the uploaded file id, or the thrown
message). -/
structure DriveRun where
  base : Run
  driveReady : Bool
  uploadResult : Except String String

/-- Direct download link built from the Drive file id
(src/unnamed/part_001 line 129). -/
def driveDirectLink (fid : String) : String :=
  "https://drive.google.com/uc?export=download&id=" ++ fid

/-- Browsable link built from the Drive file id (line 135). -/
def driveWebLink (fid : String) : String :=
  "https://drive.google.com/file/d/" ++ fid ++ "/view"

/-- One post-setup run of the Google Drive variant handler
(src/unnamed/part_001 lines 322-472).  The `finish` handler uploads when
Drive is ready, falling back to the local link with a warning on upload
failure, and uses the local link with a different warning when Drive was
never initialized; the `error` handler is as in the local variant. -/
def runTransferDrive (dr : DriveRun) : EngineOut :=
  let r := dr.base
  let ps := progressEvents r.downloadId r.fileSize r.speeds r.chunks 0 0 0
  let head := Event.started r.downloadId r.filename r.fileSize
  if r.writeFails then
    { events := head :: ps ++ [Event.error r.downloadId "Failed to save file"],
      entry := none,
      unlinked := [mkFilePath r] }
  else
    let localUrl := "/downloads/" ++ r.uniqueFilename
    if dr.driveReady then
      let upEv := Event.progress r.downloadId (statSize r) (statSize r) 100
        "Uploading to Google Drive..."
      match dr.uploadResult with
      | Except.ok fid =>
          { events := head :: ps ++ [upEv,
              Event.complete r.downloadId r.filename (statSize r) (driveDirectLink fid)
                (some "google_drive") (some (driveWebLink fid)) none],
            entry := some { initialEntry r with
              downloadedBytes := statSize r, status := Status.completed,
              downloadUrl := some (driveDirectLink fid), driveFileId := some fid },
            unlinked := [mkFilePath r] }
      | Except.error _ =>
          { events := head :: ps ++ [upEv,
              Event.complete r.downloadId r.filename (statSize r) localUrl
                (some "local") none (some "Google Drive upload failed, using local link")],
            entry := some { initialEntry r with
              downloadedBytes := statSize r, status := Status.completed,
              downloadUrl := some localUrl },
            unlinked := [] }
    else
      { events := head :: ps ++
          [Event.complete r.downloadId r.filename (statSize r) localUrl
            (some "local") none (some "Google Drive not configured")],
        entry := some { initialEntry r with
          downloadedBytes := statSize r, status := Status.completed,
          downloadUrl := some localUrl },
        unlinked := [] }

/-- The unlink callback of the write-error cleanup (src/server.js lines
262-266): the input is `unlinkErr?.code`; the result is whether the
cleanup failure is reported (`unlinkErr && unlinkErr.code !== 'ENOENT'`). -/
def cleanupReportsError : Option String → Bool
  | some code => code != "ENOENT"
  | none => false

/-- Actions a socket handler could perform, for stating what the
`disconnect` handler does. -/
inductive SocketAction where
  | log (message : String)
  | abortStream (downloadId : String)
  | unlinkFile (p : String)
deriving DecidableEq

/-- The `disconnect` handler (src/server.js lines 280-282, identical in
src/unnamed/part_001 lines 484-486): it only logs; the active registry and
every in-flight stream are untouched. -/
def onSocketDisconnect (active : List (String × Entry)) (socketId : String) :
    List (String × Entry) × List SocketAction :=
  (active, [SocketAction.log ("Client disconnected: " ++ socketId)])

/-! ## Range-serving endpoint (`GET /downloads/:filename`)

`src/server.js` lines 37-91 (identical in src/unnamed/part_001 lines
176-230).  The downloads directory is an input mapping a stored filename
to its bytes; a stored file is its byte list. -/

/-- Body of a response: a plain text body, file bytes, or the marker for a
streaming setup the platform rejects (`fs.createReadStream` with an
invalid range throws instead of producing bytes). -/
inductive DlBody where
  | text (s : String)
  | bytes (b : List Nat)
  | streamFailure
deriving DecidableEq

/-- The response fields the endpoint sets. -/
structure DlResponse where
  status : Nat
  contentLength : Option Int
  contentRange : Option String
  contentType : Option String
  contentDisposition : Option String
  acceptRanges : Option String
  body : DlBody
deriving DecidableEq

/-- `range.replace(/bytes=/, "")`: the first occurrence of the literal
`bytes=` is removed. -/
def removeBytesEqAux : List Char → List Char
  | 'b' :: 'y' :: 't' :: 'e' :: 's' :: '=' :: rest => rest
  | c :: rest => c :: removeBytesEqAux rest
  | [] => []

/-- String wrapper for `removeBytesEqAux`. -/
def removeBytesEq (s : String) : String := String.mk (removeBytesEqAux s.data)

/-- Result of one run of digit accumulation for `parseInt`: digits are
consumed greedily, anything after the first non-digit is ignored. -/
def digitsValAux : List Char → Nat → Nat
  | [], acc => acc
  | c :: cs, acc =>
      if c.isDigit then digitsValAux cs (10 * acc + (c.toNat - 48)) else acc

/-- Model of JavaScript `parseInt(s, 10)`: skip leading whitespace, accept
an optional sign, then demand at least one digit (else NaN, modeled as
`none`); trailing non-digits are ignored. -/
def parseIntJs (s : String) : Option Int :=
  let ws := fun c => c == ' ' || c == Char.ofNat 9 || c == '\n' || c == Char.ofNat 13
    || c == Char.ofNat 11 || c == Char.ofNat 12
  match s.data.dropWhile ws with
  | '-' :: c :: rest =>
      if c.isDigit then some (-((digitsValAux (c :: rest) 0 : Nat) : Int)) else none
  | '+' :: c :: rest =>
      if c.isDigit then some ((digitsValAux (c :: rest) 0 : Nat) : Int) else none
  | c :: rest => if c.isDigit then some ((digitsValAux (c :: rest) 0 : Nat) : Int) else none
  | [] => none

/-- Splitting on the separator `-` as JavaScript `split("-")` does:
every separator occurrence cuts, and empty pieces are kept. -/
def splitDashAux : List Char → List Char → List String
  | [], acc => [String.mk acc.reverse]
  | c :: rest, acc =>
      if c == '-' then String.mk acc.reverse :: splitDashAux rest []
      else splitDashAux rest (c :: acc)

/-- String wrapper for `splitDashAux`. -/
def splitDash (s : String) : List String := splitDashAux s.data []

/-- Bytes delivered by `fs.createReadStream` called with `start` and `end`
options: the inclusive slice, clamped at the end of the file; a negative
start or an end below the start makes the platform throw. -/
def sliceStream (content : List Nat) (st en : Int) : DlBody :=
  if 0 ≤ st ∧ st ≤ en then DlBody.bytes ((content.drop st.toNat).take (en - st + 1).toNat)
  else DlBody.streamFailure

/-- The `GET /downloads/:filename` handler: 404 for a missing file; with a
`Range` header, parse `start` and optional `end` (defaulting to the last
byte), answer 206 with `Content-Range`, chunk `Content-Length` and the
sliced bytes; without one, answer 200 with the full length and body.  Both
served branches set `application/octet-stream`, an attachment disposition
and `Accept-Ranges: bytes`. -/
def serveDownload (files : String → Option (List Nat)) (filename : String)
    (range : Option String) : DlResponse :=
  match files filename with
  | none =>
      { status := 404, contentLength := none, contentRange := none, contentType := none,
        contentDisposition := none, acceptRanges := none,
        body := DlBody.text "File not found" }
  | some content =>
      let fileSize := content.length
      let disp := "attachment; filename=\"" ++ filename ++ "\""
      match range with
      | none =>
          { status := 200, contentLength := some (fileSize : Int), contentRange := none,
            contentType := some "application/octet-stream",
            contentDisposition := some disp, acceptRanges := some "bytes",
            body := DlBody.bytes content }
      | some rg =>
          let parts := splitDash (removeBytesEq rg)
          let startO := parseIntJs (parts.headD "")
          let endO :=
            match parts[1]? with
            | some p2 => if p2 = "" then some ((fileSize : Int) - 1) else parseIntJs p2
            | none => some ((fileSize : Int) - 1)
          match startO, endO with
          | some st, some en =>
              { status := 206, contentLength := some (en - st + 1),
                contentRange := some ("bytes " ++ toString st ++ "-" ++ toString en
                  ++ "/" ++ toString fileSize),
                contentType := some "application/octet-stream",
                contentDisposition := some disp, acceptRanges := some "bytes",
                body := sliceStream content st en }
          | _, _ =>
              { status := 206, contentLength := none, contentRange := none,
                contentType := some "application/octet-stream",
                contentDisposition := some disp, acceptRanges := some "bytes",
                body := DlBody.streamFailure }

/-! ## Derived observations used in the statements -/

/-- Whether an event is `download-started`. -/
def Event.isStarted : Event → Bool
  | Event.started _ _ _ => true
  | _ => false

/-- Whether an event is `download-progress`. -/
def Event.isProgress : Event → Bool
  | Event.progress _ _ _ _ _ => true
  | _ => false

/-- Whether an event is `download-complete`. -/
def Event.isComplete : Event → Bool
  | Event.complete _ _ _ _ _ _ _ => true
  | _ => false

/-- Whether an event is `download-error`. -/
def Event.isError : Event → Bool
  | Event.error _ _ => true
  | _ => false

/-- The `downloadedBytes` field of a progress event. -/
def pbOf : Event → Option Nat
  | Event.progress _ d _ _ _ => some d
  | _ => none

/-- The `progress` (percent) field of a progress event. -/
def ppOf : Event → Option Int
  | Event.progress _ _ _ p _ => some p
  | _ => none

/-- The `downloadedBytes` values of the progress events of a trace, in
emission order. -/
def progressBytes (t : List Event) : List Nat := t.filterMap pbOf

/-- The percent values of the progress events of a trace, in emission
order. -/
def progressPcts (t : List Event) : List Int := t.filterMap ppOf

/-- A trace of the shape `started`, then progress events only, then one
terminal `complete` or `error` event and nothing after it. -/
def TraceOk (t : List Event) : Prop :=
  ∃ id fn fs ps term,
    t = Event.started id fn fs :: ps ++ [term] ∧
    (∀ e ∈ ps, e.isProgress = true) ∧
    (term.isComplete = true ∨ term.isError = true)

/-! ## Concrete inputs used by witnesses and counterexamples -/

/-- Speed oracle returning a fixed rendering. -/
def speedsZero : Nat → String := fun _ => "0 B/s"

/-- A run whose announced size matches the delivered bytes. -/
def sampleRun : Run :=
  { downloadId := "id-1", filename := "report.pdf", uniqueFilename := "ab12cd34_report.pdf",
    fileSize := 1000, chunks := [500, 300, 200], writeFails := false, speeds := speedsZero }

/-- A run whose announced size (from the HEAD probe) is 1000 while the GET
body delivered only 500 bytes before ending normally. -/
def sampleShortRun : Run :=
  { downloadId := "id-2", filename := "report.pdf", uniqueFilename := "ab12cd34_report.pdf",
    fileSize := 1000, chunks := [500], writeFails := false, speeds := speedsZero }

/-- A run whose announced size (from the HEAD probe) is 100 while the GET
body delivered 150 bytes. -/
def sampleOverRun : Run :=
  { downloadId := "id-3", filename := "report.pdf", uniqueFilename := "ab12cd34_report.pdf",
    fileSize := 100, chunks := [150], writeFails := false, speeds := speedsZero }

/-- A run whose write stream errors after 500 delivered bytes. -/
def sampleErrRun : Run :=
  { downloadId := "id-4", filename := "report.pdf", uniqueFilename := "ab12cd34_report.pdf",
    fileSize := 1000, chunks := [500], writeFails := true, speeds := speedsZero }

/-- A Drive-variant run where the upload throws after the file is written. -/
def sampleDriveFail : DriveRun :=
  { base := sampleRun, driveReady := true, uploadResult := Except.error "quota exceeded" }

/-- A Drive-variant run with the Drive backend never initialized. -/
def sampleDriveOff : DriveRun :=
  { base := sampleRun, driveReady := false, uploadResult := Except.ok "FID" }

/-- A Drive-variant run whose upload succeeds. -/
def sampleDriveOk : DriveRun :=
  { base := sampleRun, driveReady := true, uploadResult := Except.ok "FID" }

/-- An active registry holding one mid-flight transfer. -/
def sampleActive : List (String × Entry) := [("id-1", initialEntry sampleRun)]

/-- A downloads directory holding one 1000-byte file. -/
def sampleFiles : String → Option (List Nat) :=
  fun n => if n = "f.bin" then some (List.replicate 1000 7) else none

/-! ## Helper lemmas -/

/-- Every event the data-listener fold emits is a progress event. -/
theorem isProgress_of_mem_progressEvents {id : String} {s : Nat} {sp : Nat → String} :
    ∀ (cs : List Nat) (i d0 : Nat) (lp : Int) (e : Event),
      e ∈ progressEvents id s sp cs i d0 lp → e.isProgress = true := by
  intro cs
  induction cs with
  | nil => intro i d0 lp e h; simp [progressEvents] at h
  | cons c cs ih =>
      intro i d0 lp e h
      rw [progressEvents] at h
      by_cases hc : progressOf (d0 + c) s ≠ lp ∨ progressOf (d0 + c) s = -1
      · rw [if_pos hc] at h
        rcases List.mem_cons.mp h with h1 | h2
        · subst h1; rfl
        · exact ih _ _ _ _ h2
      · rw [if_neg hc] at h
        exact ih _ _ _ _ h

/-- Every emitted progress event carries the running byte count, the
announced size and the percent computed from them by `progressOf`. -/
theorem shape_of_mem_progressEvents {id : String} {s : Nat} {sp : Nat → String} :
    ∀ (cs : List Nat) (i d0 : Nat) (lp : Int) (e : Event),
      e ∈ progressEvents id s sp cs i d0 lp →
      ∃ d j, e = Event.progress id d s (progressOf d s) (sp j) := by
  intro cs
  induction cs with
  | nil => intro i d0 lp e h; simp [progressEvents] at h
  | cons c cs ih =>
      intro i d0 lp e h
      rw [progressEvents] at h
      by_cases hc : progressOf (d0 + c) s ≠ lp ∨ progressOf (d0 + c) s = -1
      · rw [if_pos hc] at h
        rcases List.mem_cons.mp h with h1 | h2
        · exact ⟨d0 + c, i, h1⟩
        · exact ih _ _ _ _ h2
      · rw [if_neg hc] at h
        exact ih _ _ _ _ h

/-- The byte counts of the emitted progress events are non-decreasing, and
all of them dominate the byte count already accumulated. -/
theorem progressEvents_bytes_mono {id : String} {s : Nat} {sp : Nat → String} :
    ∀ (cs : List Nat) (i d0 : Nat) (lp : Int),
      List.Chain' (fun a b => a ≤ b)
        (progressBytes (progressEvents id s sp cs i d0 lp)) ∧
      ∀ x ∈ progressBytes (progressEvents id s sp cs i d0 lp), d0 ≤ x := by
  intro cs
  induction cs with
  | nil => intro i d0 lp; simp [progressEvents, progressBytes]
  | cons c cs ih =>
      intro i d0 lp
      rw [progressEvents]
      by_cases hc : progressOf (d0 + c) s ≠ lp ∨ progressOf (d0 + c) s = -1
      · rw [if_pos hc]
        obtain ⟨hchain, hall⟩ := ih (i + 1) (d0 + c) (progressOf (d0 + c) s)
        simp only [progressBytes, List.filterMap_cons] at *
        rw [show pbOf (Event.progress id (d0 + c) s (progressOf (d0 + c) s) (sp i)) =
          some (d0 + c) from rfl]
        constructor
        · exact List.chain'_cons'.mpr ⟨fun y hy => hall y (List.mem_of_mem_head? hy), hchain⟩
        · intro x hx
          rcases List.mem_cons.mp hx with h1 | h2
          · omega
          · exact le_trans (Nat.le_add_right d0 c) (hall x h2)
      · rw [if_neg hc]
        obtain ⟨hchain, hall⟩ := ih (i + 1) (d0 + c) lp
        exact ⟨hchain, fun x hx => le_trans (Nat.le_add_right d0 c) (hall x hx)⟩

/-- Rounding the ratio of equal numerator and denominator gives exactly
one hundred percent. -/
theorem progressOf_self {s : Nat} (hs : 0 < s) : progressOf s s = 100 := by
  have h2 : 0 < 2 * s := by omega
  have hnum : 200 * s + s = 201 * s := by ring
  have hle : (200 * s + s) / (2 * s) ≤ 100 := by
    rw [Nat.div_le_iff_le_mul_add_pred h2]
    omega
  have hge : 100 ≤ (200 * s + s) / (2 * s) := by
    rw [Nat.le_div_iff_mul_le h2]
    omega
  rw [progressOf, if_pos hs]
  have h100 : (200 * s + s) / (2 * s) = 100 := Nat.le_antisymm hle hge
  rw [h100]
  rfl

/-- When the announced size is known, the percent is non-negative, and it
is at most one hundred as long as the delivered bytes do not exceed the
announced size. -/
theorem progressOf_bounds {d s : Nat} (hs : 0 < s) :
    0 ≤ progressOf d s ∧ (d ≤ s → progressOf d s ≤ 100) := by
  rw [progressOf, if_pos hs]
  constructor
  · exact Int.natCast_nonneg _
  · intro hds
    have h2 : 0 < 2 * s := by omega
    have hle : (200 * d + s) / (2 * s) ≤ 100 := by
      rw [Nat.div_le_iff_le_mul_add_pred h2]
      omega
    exact_mod_cast hle

/-- Once the delivered bytes overshoot far enough that the rounded ratio
itself passes one hundred — at 200 times the bytes reaching 201 times the
size — the percent strictly exceeds one hundred.  (A slighter overshoot,
such as 1001 bytes of an announced 1000, still rounds to exactly one
hundred.) -/
theorem progressOf_overflow {d s : Nat} (hs : 0 < s) (hov : 201 * s ≤ 200 * d) :
    100 < progressOf d s := by
  rw [progressOf, if_pos hs]
  have h2 : 0 < 2 * s := by omega
  have hge : 101 ≤ (200 * d + s) / (2 * s) := by
    rw [Nat.le_div_iff_mul_le h2]
    omega
  exact_mod_cast hge

/-- When the announced size is unknown, the percent is the sentinel. -/
theorem progressOf_unknown (d : Nat) : progressOf d 0 = -1 := by
  rw [progressOf]
  simp

/-- Once the accumulated bytes will reach the announced size exactly, the
last emitted progress event reports one hundred percent (or nothing is
emitted because the throttle state already sits at one hundred). -/
theorem progressEvents_last_pct {id : String} {s : Nat} {sp : Nat → String} (hs : 0 < s) :
    ∀ (cs : List Nat) (i d0 : Nat) (lp : Int), d0 + cs.sum = s → cs ≠ [] →
      (progressPcts (progressEvents id s sp cs i d0 lp)).getLast? = some 100 ∨
      (progressPcts (progressEvents id s sp cs i d0 lp) = [] ∧ lp = 100) := by
  intro cs
  induction cs with
  | nil => intro i d0 lp hsum hne; exact absurd rfl hne
  | cons c cs ih =>
      intro i d0 lp hsum hne
      rw [progressEvents]
      rcases List.eq_nil_or_concat cs with hnil | _
      · subst hnil
        have hd : d0 + c = s := by simpa using hsum
        rw [hd]
        have hp : progressOf s s = 100 := progressOf_self hs
        by_cases hc : progressOf s s ≠ lp ∨ progressOf s s = -1
        · rw [if_pos hc]
          left
          simp [progressEvents, progressPcts, List.filterMap_cons, ppOf, hp]
        · rw [if_neg hc]
          right
          push_neg at hc
          simp [progressEvents, progressPcts, ← hc.1, hp]
      · have hcs : cs ≠ [] := by
          rintro rfl
          simp_all
        have hsum2 : (d0 + c) + cs.sum = s := by
          simp [List.sum_cons] at hsum
          omega
        by_cases hc : progressOf (d0 + c) s ≠ lp ∨ progressOf (d0 + c) s = -1
        · rw [if_pos hc]
          have := ih (i + 1) (d0 + c) (progressOf (d0 + c) s) hsum2 hcs
          rcases this with hlast | ⟨hempty, hlp⟩
          · left
            rw [progressPcts] at hlast
            show ((progressOf (d0 + c) s) :: List.filterMap ppOf
              (progressEvents id s sp cs (i + 1) (d0 + c)
                (progressOf (d0 + c) s))).getLast? = some 100
            exact List.mem_getLast?_cons hlast
          · left
            rw [progressPcts] at hempty
            show ((progressOf (d0 + c) s) :: List.filterMap ppOf
              (progressEvents id s sp cs (i + 1) (d0 + c)
                (progressOf (d0 + c) s))).getLast? = some 100
            rw [hempty, hlp]
            rfl
        · rw [if_neg hc]
          exact ih (i + 1) (d0 + c) lp hsum2 hcs

/-- Wrapping a progress block in non-progress events leaves its byte
sequence unchanged. -/
theorem progressBytes_wrap (e1 : Event) (ps : List Event) (e2 : Event)
    (h1 : pbOf e1 = none) (h2 : pbOf e2 = none) :
    progressBytes (e1 :: ps ++ [e2]) = progressBytes ps := by
  simp [progressBytes, List.filterMap_cons, List.filterMap_append, h1, h2]

/-- Wrapping a progress block in non-progress events leaves its percent
sequence unchanged. -/
theorem progressPcts_wrap (e1 : Event) (ps : List Event) (e2 : Event)
    (h1 : ppOf e1 = none) (h2 : ppOf e2 = none) :
    progressPcts (e1 :: ps ++ [e2]) = progressPcts ps := by
  simp [progressPcts, List.filterMap_cons, List.filterMap_append, h1, h2]

/-- The last element of a trace of the shape head, middle, tail. -/
theorem getLast?_wrap (e1 : Event) (ps : List Event) (e2 : Event) :
    (e1 :: ps ++ [e2]).getLast? = some e2 :=
  List.getLast?_concat (e1 :: ps)

/-! ## Claims -/

/-- C1: for every single transfer (one that reached registration, so the
setup of the HEAD probe and the GET request succeeded), the events emitted
to the originating channel are one `download-started`, then zero or more
`download-progress` events, then exactly one terminal `download-complete`
or `download-error` and nothing after it — in both server variants. -/
theorem c1_transfer_event_order (s : Setup) (r : Run) (dr : DriveRun)
    (hs : s = Setup.ok r) :
    TraceOk (startDownload s).events ∧ TraceOk (runTransferDrive dr).events := by
  subst hs
  constructor
  · show TraceOk (runTransfer r).events
    rw [runTransfer]
    by_cases hw : r.writeFails = true
    · rw [if_pos hw]
      exact ⟨r.downloadId, r.filename, r.fileSize, _, _, rfl,
        fun e he => isProgress_of_mem_progressEvents _ _ _ _ e he, Or.inr rfl⟩
    · rw [if_neg hw]
      exact ⟨r.downloadId, r.filename, r.fileSize, _, _, rfl,
        fun e he => isProgress_of_mem_progressEvents _ _ _ _ e he, Or.inl rfl⟩
  · rw [runTransferDrive]
    by_cases hw : dr.base.writeFails = true
    · rw [if_pos hw]
      exact ⟨dr.base.downloadId, dr.base.filename, dr.base.fileSize, _, _, rfl,
        fun e he => isProgress_of_mem_progressEvents _ _ _ _ e he, Or.inr rfl⟩
    · rw [if_neg hw]
      by_cases hd : dr.driveReady = true
      · rw [if_pos hd]
        rcases hu : dr.uploadResult with msg | fid
        · refine ⟨dr.base.downloadId, dr.base.filename, dr.base.fileSize,
            progressEvents dr.base.downloadId dr.base.fileSize dr.base.speeds
              dr.base.chunks 0 0 0 ++
              [Event.progress dr.base.downloadId (statSize dr.base) (statSize dr.base) 100
                "Uploading to Google Drive..."],
            Event.complete dr.base.downloadId dr.base.filename (statSize dr.base)
              ("/downloads/" ++ dr.base.uniqueFilename) (some "local") none
              (some "Google Drive upload failed, using local link"),
            by simp, ?_, Or.inl rfl⟩
          intro e he
          rcases List.mem_append.mp he with h1 | h2
          · exact isProgress_of_mem_progressEvents _ _ _ _ e h1
          · rw [List.mem_singleton.mp h2]; rfl
        · refine ⟨dr.base.downloadId, dr.base.filename, dr.base.fileSize,
            progressEvents dr.base.downloadId dr.base.fileSize dr.base.speeds
              dr.base.chunks 0 0 0 ++
              [Event.progress dr.base.downloadId (statSize dr.base) (statSize dr.base) 100
                "Uploading to Google Drive..."],
            Event.complete dr.base.downloadId dr.base.filename (statSize dr.base)
              (driveDirectLink fid) (some "google_drive") (some (driveWebLink fid)) none,
            by simp, ?_, Or.inl rfl⟩
          intro e he
          rcases List.mem_append.mp he with h1 | h2
          · exact isProgress_of_mem_progressEvents _ _ _ _ e h1
          · rw [List.mem_singleton.mp h2]; rfl
      · rw [if_neg hd]
        exact ⟨dr.base.downloadId, dr.base.filename, dr.base.fileSize, _, _, rfl,
          fun e he => isProgress_of_mem_progressEvents _ _ _ _ e he, Or.inl rfl⟩

/-- Witness for C1 at a concrete run of each variant. -/
theorem c1_transfer_event_order_witness :
    TraceOk (startDownload (Setup.ok sampleRun)).events ∧
    TraceOk (runTransferDrive sampleDriveOk).events :=
  c1_transfer_event_order (Setup.ok sampleRun) sampleRun sampleDriveOk rfl

/-- The last element of a trace of the shape head, middle, two tail
events. -/
theorem getLast?_wrap2 (e1 : Event) (ps : List Event) (e2 e3 : Event) :
    (e1 :: ps ++ [e2, e3]).getLast? = some e3 := by
  rw [show e1 :: ps ++ [e2, e3] = (e1 :: (ps ++ [e2])) ++ [e3] by simp]
  exact List.getLast?_concat _

/-- C2: in the Google Drive variant, when the upload fails after the local
file is fully written, the transfer still ends with `download-complete`
(not `download-error`) whose `source` is `local`, whose `downloadUrl` is
the local `/downloads/` path and whose `warning` is a populated string,
and the stored entry has status `completed`. -/
theorem c2_publish_failure_local_fallback (dr : DriveRun) (msg : String)
    (hw : dr.base.writeFails = false) (hd : dr.driveReady = true)
    (hu : dr.uploadResult = Except.error msg) :
    ((runTransferDrive dr).events).getLast? =
      some (Event.complete dr.base.downloadId dr.base.filename (statSize dr.base)
        ("/downloads/" ++ dr.base.uniqueFilename) (some "local") none
        (some "Google Drive upload failed, using local link")) ∧
    "Google Drive upload failed, using local link" ≠ "" ∧
    ∃ en, (runTransferDrive dr).entry = some en ∧ en.status = Status.completed ∧
      en.downloadUrl = some ("/downloads/" ++ dr.base.uniqueFilename) ∧
      en.downloadedBytes = statSize dr.base := by
  have hout : runTransferDrive dr =
      { events := Event.started dr.base.downloadId dr.base.filename dr.base.fileSize ::
          progressEvents dr.base.downloadId dr.base.fileSize dr.base.speeds
            dr.base.chunks 0 0 0 ++
          [Event.progress dr.base.downloadId (statSize dr.base) (statSize dr.base) 100
            "Uploading to Google Drive...",
           Event.complete dr.base.downloadId dr.base.filename (statSize dr.base)
            ("/downloads/" ++ dr.base.uniqueFilename) (some "local") none
            (some "Google Drive upload failed, using local link")],
        entry := some { initialEntry dr.base with
          downloadedBytes := statSize dr.base, status := Status.completed,
          downloadUrl := some ("/downloads/" ++ dr.base.uniqueFilename) },
        unlinked := [] } := by
    rw [runTransferDrive, hu]
    simp [hw, hd]
  rw [hout]
  exact ⟨getLast?_wrap2 _ _ _ _, by decide, ⟨_, rfl, rfl, rfl, rfl⟩⟩

/-- Witness for C2 at a concrete failing upload. -/
theorem c2_publish_failure_local_fallback_witness :
    ((runTransferDrive sampleDriveFail).events).getLast? =
      some (Event.complete "id-1" "report.pdf" 1000 "/downloads/ab12cd34_report.pdf"
        (some "local") none (some "Google Drive upload failed, using local link")) ∧
    "Google Drive upload failed, using local link" ≠ "" ∧
    ∃ en, (runTransferDrive sampleDriveFail).entry = some en ∧
      en.status = Status.completed ∧
      en.downloadUrl = some "/downloads/ab12cd34_report.pdf" ∧
      en.downloadedBytes = 1000 :=
  c2_publish_failure_local_fallback sampleDriveFail "quota exceeded" rfl rfl rfl

/-- C10: in the Google Drive variant, a transfer finishing while Drive is
not initialized completes with `source` `local`, a local `/downloads/`
URL and the populated warning `Google Drive not configured`, without any
publish attempt having been made. -/
theorem c10_drive_unconfigured_warning (dr : DriveRun)
    (hw : dr.base.writeFails = false) (hd : dr.driveReady = false) :
    ((runTransferDrive dr).events).getLast? =
      some (Event.complete dr.base.downloadId dr.base.filename (statSize dr.base)
        ("/downloads/" ++ dr.base.uniqueFilename) (some "local") none
        (some "Google Drive not configured")) ∧
    "Google Drive not configured" ≠ "" ∧
    ∃ en, (runTransferDrive dr).entry = some en ∧ en.status = Status.completed ∧
      en.downloadUrl = some ("/downloads/" ++ dr.base.uniqueFilename) := by
  have hout : runTransferDrive dr =
      { events := Event.started dr.base.downloadId dr.base.filename dr.base.fileSize ::
          progressEvents dr.base.downloadId dr.base.fileSize dr.base.speeds
            dr.base.chunks 0 0 0 ++
          [Event.complete dr.base.downloadId dr.base.filename (statSize dr.base)
            ("/downloads/" ++ dr.base.uniqueFilename) (some "local") none
            (some "Google Drive not configured")],
        entry := some { initialEntry dr.base with
          downloadedBytes := statSize dr.base, status := Status.completed,
          downloadUrl := some ("/downloads/" ++ dr.base.uniqueFilename) },
        unlinked := [] } := by
    rw [runTransferDrive]
    simp [hw, hd]
  rw [hout]
  exact ⟨getLast?_wrap _ _ _, by decide, ⟨_, rfl, rfl, rfl⟩⟩

/-- Witness for C10 at a concrete run without Drive. -/
theorem c10_drive_unconfigured_warning_witness :
    ((runTransferDrive sampleDriveOff).events).getLast? =
      some (Event.complete "id-1" "report.pdf" 1000 "/downloads/ab12cd34_report.pdf"
        (some "local") none (some "Google Drive not configured")) ∧
    "Google Drive not configured" ≠ "" ∧
    ∃ en, (runTransferDrive sampleDriveOff).entry = some en ∧
      en.status = Status.completed ∧
      en.downloadUrl = some "/downloads/ab12cd34_report.pdf" :=
  c10_drive_unconfigured_warning sampleDriveOff rfl rfl

/-- C6: on completion, both the `downloadedBytes` stored in the
active-downloads entry and the `fileSize` of `download-complete` equal the
stat size of the written file (the sum of the delivered chunks), whatever
size the response headers announced — in both variants, and in every
`finish` branch of the Drive variant. -/
theorem c6_completion_sizes_stat (r : Run) (dr : DriveRun)
    (hw : r.writeFails = false) (hwd : dr.base.writeFails = false) :
    (∃ en, (runTransfer r).entry = some en ∧ en.downloadedBytes = statSize r ∧
      en.status = Status.completed) ∧
    ((runTransfer r).events).getLast? =
      some (Event.complete r.downloadId r.filename (statSize r)
        ("/downloads/" ++ r.uniqueFilename) none none none) ∧
    (∃ en, (runTransferDrive dr).entry = some en ∧
      en.downloadedBytes = statSize dr.base ∧ en.status = Status.completed) ∧
    (∃ url src dl w, ((runTransferDrive dr).events).getLast? =
      some (Event.complete dr.base.downloadId dr.base.filename (statSize dr.base)
        url src dl w)) := by
  have hout : runTransfer r =
      { events := Event.started r.downloadId r.filename r.fileSize ::
          progressEvents r.downloadId r.fileSize r.speeds r.chunks 0 0 0 ++
          [Event.complete r.downloadId r.filename (statSize r)
            ("/downloads/" ++ r.uniqueFilename) none none none],
        entry := some { initialEntry r with
          downloadedBytes := statSize r, status := Status.completed,
          downloadUrl := some ("/downloads/" ++ r.uniqueFilename) },
        unlinked := [] } := by
    rw [runTransfer]
    simp [hw]
  refine ⟨⟨_, by rw [hout], rfl, rfl⟩, by rw [hout]; exact getLast?_wrap _ _ _, ?_, ?_⟩
  · rw [runTransferDrive]
    simp only [hwd, Bool.false_eq_true, if_false]
    by_cases hd : dr.driveReady = true
    · simp only [hd, if_true]
      rcases dr.uploadResult with msg | fid
      · exact ⟨_, rfl, rfl, rfl⟩
      · exact ⟨_, rfl, rfl, rfl⟩
    · simp only [hd, if_false]
      exact ⟨_, rfl, rfl, rfl⟩
  · rw [runTransferDrive]
    simp only [hwd, Bool.false_eq_true, if_false]
    by_cases hd : dr.driveReady = true
    · simp only [hd, if_true]
      rcases dr.uploadResult with msg | fid
      · exact ⟨_, _, _, _, getLast?_wrap2 _ _ _ _⟩
      · exact ⟨_, _, _, _, getLast?_wrap2 _ _ _ _⟩
    · simp only [hd, if_false]
      exact ⟨_, _, _, _, getLast?_wrap _ _ _⟩

/-- Witness for C6 at concrete runs of both variants. -/
theorem c6_completion_sizes_stat_witness :
    (∃ en, (runTransfer sampleRun).entry = some en ∧ en.downloadedBytes = 1000 ∧
      en.status = Status.completed) ∧
    ((runTransfer sampleRun).events).getLast? =
      some (Event.complete "id-1" "report.pdf" 1000 "/downloads/ab12cd34_report.pdf"
        none none none) ∧
    (∃ en, (runTransferDrive sampleDriveOk).entry = some en ∧
      en.downloadedBytes = 1000 ∧ en.status = Status.completed) ∧
    (∃ url src dl w, ((runTransferDrive sampleDriveOk).events).getLast? =
      some (Event.complete "id-1" "report.pdf" 1000 url src dl w)) :=
  c6_completion_sizes_stat sampleRun sampleDriveOk rfl rfl

/-- A progress event is not a started, complete or error event. -/
theorem not_other_of_isProgress (e : Event) (h : e.isProgress = true) :
    e.isError = false ∧ e.isComplete = false ∧ e.isStarted = false := by
  cases e <;> simp_all [Event.isProgress, Event.isError, Event.isComplete, Event.isStarted]

/-- C5 counterexample: with an announced size of 1000 (from the HEAD
probe) and a GET body of 500 bytes that ends normally, the writer
finishes, `download-complete` is emitted, and the final progress event
before it reports 50 — not 100 — although the announced size was known
and nonzero.  The claim as stated is false on this input. -/
theorem c5_final_progress_counterexample :
    (progressPcts (runTransfer sampleShortRun).events).getLast? = some 50 ∧
    sampleShortRun.fileSize = 1000 ∧
    ((runTransfer sampleShortRun).events).getLast? =
      some (Event.complete "id-2" "report.pdf" 500 "/downloads/ab12cd34_report.pdf"
        none none none) ∧
    (progressPcts (runTransfer sampleShortRun).events).getLast? ≠ some 100 := by
  exact ⟨rfl, rfl, rfl, by decide⟩

/-- C5 amended: successive progress events of a transfer are
non-decreasing in `downloadedBytes`; and whenever the announced size is
nonzero and the delivered bytes add up to exactly that size, the final
progress event emitted before `download-complete` reports 100 (the
throttle never suppresses the final signal).  The original claim needs
the extra agreement hypothesis because the announced size may come from a
HEAD probe that disagrees with the GET body. -/
theorem c5_progress_monotone_final_amended (r : Run) :
    List.Chain' (fun a b => a ≤ b) (progressBytes (runTransfer r).events) ∧
    (r.writeFails = false → 0 < r.fileSize → r.chunks.sum = r.fileSize →
      (progressPcts (runTransfer r).events).getLast? = some 100) := by
  constructor
  · rw [runTransfer]
    by_cases hw : r.writeFails = true
    · rw [if_pos hw]
      rw [progressBytes_wrap (Event.started r.downloadId r.filename r.fileSize) _
        (Event.error r.downloadId "Failed to save file") rfl rfl]
      exact (progressEvents_bytes_mono r.chunks 0 0 0).1
    · rw [if_neg hw]
      rw [progressBytes_wrap (Event.started r.downloadId r.filename r.fileSize) _
        (Event.complete r.downloadId r.filename (statSize r)
          ("/downloads/" ++ r.uniqueFilename) none none none) rfl rfl]
      exact (progressEvents_bytes_mono r.chunks 0 0 0).1
  · intro hw hs hsum
    have hw' : ¬ r.writeFails = true := by simp [hw]
    rw [runTransfer, if_neg hw']
    rw [progressPcts_wrap (Event.started r.downloadId r.filename r.fileSize) _
      (Event.complete r.downloadId r.filename (statSize r)
        ("/downloads/" ++ r.uniqueFilename) none none none) rfl rfl]
    have hne : r.chunks ≠ [] := by
      intro h0
      rw [h0] at hsum
      simp at hsum
      omega
    have := @progressEvents_last_pct r.downloadId r.fileSize r.speeds hs
      r.chunks 0 0 0 (by omega) hne
    rcases this with h | ⟨_, hlp⟩
    · exact h
    · exact absurd hlp (by decide)

/-- Witness for C5 at a concrete run whose delivered bytes match the
announced size. -/
theorem c5_progress_monotone_final_amended_witness :
    List.Chain' (fun a b => a ≤ b) (progressBytes (runTransfer sampleRun).events) ∧
    (progressPcts (runTransfer sampleRun).events).getLast? = some 100 :=
  ⟨(c5_progress_monotone_final_amended sampleRun).1,
    (c5_progress_monotone_final_amended sampleRun).2 rfl (by decide) (by decide)⟩

/-- C7 counterexample: with an announced size of 100 (from the HEAD
probe) and a GET body chunk of 150 bytes, the emitted progress event
carries percent 150, outside the claimed range 0 to 100, although the
size was known.  The claim as stated is false on this input. -/
theorem c7_progress_range_counterexample :
    progressPcts (runTransfer sampleOverRun).events = [150] ∧
    0 < sampleOverRun.fileSize ∧ ¬((150 : Int) ≤ 100) := by
  exact ⟨rfl, by decide, by decide⟩

/-- C7 amended: every progress event of a transfer reports the percent
`progressOf` of its byte count and the announced size; with the size
unknown (0) the percent is the sentinel -1 and no division happens; with
the size known the percent is non-negative, it is at most 100 as long as
the delivered bytes do not exceed the announced size, and — the code
never clamps — it rises strictly above 100 once the bytes overshoot far
enough that the rounded ratio passes 100 (200 times the bytes reaching
201 times the size; a slighter overshoot still rounds to 100). -/
theorem c7_progress_sentinel_range_amended (r : Run) (e : Event)
    (he : e ∈ (runTransfer r).events) (id : String) (d s : Nat) (p : Int) (sp : String)
    (hee : e = Event.progress id d s p sp) :
    s = r.fileSize ∧ p = progressOf d r.fileSize ∧
    (r.fileSize = 0 → p = -1) ∧
    (0 < r.fileSize → 0 ≤ p ∧ (d ≤ r.fileSize → p ≤ 100) ∧
      (201 * r.fileSize ≤ 200 * d → 100 < p)) := by
  subst hee
  have hmem : Event.progress id d s p sp ∈
      progressEvents r.downloadId r.fileSize r.speeds r.chunks 0 0 0 := by
    rw [runTransfer] at he
    by_cases hw : r.writeFails = true
    · rw [if_pos hw] at he
      rcases List.mem_cons.mp he with h1 | h2
      · exact absurd h1 (by simp)
      · rcases List.mem_append.mp h2 with h3 | h4
        · exact h3
        · exact absurd (List.mem_singleton.mp h4) (by simp)
    · rw [if_neg hw] at he
      rcases List.mem_cons.mp he with h1 | h2
      · exact absurd h1 (by simp)
      · rcases List.mem_append.mp h2 with h3 | h4
        · exact h3
        · exact absurd (List.mem_singleton.mp h4) (by simp)
  obtain ⟨d2, j, hshape⟩ := shape_of_mem_progressEvents r.chunks 0 0 0 _ hmem
  obtain ⟨hid, hd, hs, hp, hsp⟩ := Event.progress.inj hshape
  refine ⟨hs, by rw [hp, hd], ?_, ?_⟩
  · intro h0
    rw [hp, h0]
    exact progressOf_unknown d2
  · intro hpos
    have hb := progressOf_bounds (d := d2) hpos
    refine ⟨?_, ?_, ?_⟩
    · rw [hp]; exact hb.1
    · intro hle
      rw [hp]
      exact hb.2 (hd ▸ hle)
    · intro hov
      rw [hp]
      exact progressOf_overflow hpos (hd ▸ hov)

/-- Witness for C7 at two concrete progress events: one inside the 0-100
range and one strictly above 100. -/
theorem c7_progress_sentinel_range_amended_witness :
    ((1000 : Nat) = sampleRun.fileSize ∧ (50 : Int) = progressOf 500 sampleRun.fileSize ∧
      (sampleRun.fileSize = 0 → (50 : Int) = -1) ∧
      (0 < sampleRun.fileSize → 0 ≤ (50 : Int) ∧
        (500 ≤ sampleRun.fileSize → (50 : Int) ≤ 100) ∧
        (201 * sampleRun.fileSize ≤ 200 * 500 → 100 < (50 : Int)))) ∧
    ((100 : Nat) = sampleOverRun.fileSize ∧
      (150 : Int) = progressOf 150 sampleOverRun.fileSize ∧
      (sampleOverRun.fileSize = 0 → (150 : Int) = -1) ∧
      (0 < sampleOverRun.fileSize → 0 ≤ (150 : Int) ∧
        (150 ≤ sampleOverRun.fileSize → (150 : Int) ≤ 100) ∧
        (201 * sampleOverRun.fileSize ≤ 200 * 150 → 100 < (150 : Int)))) :=
  ⟨c7_progress_sentinel_range_amended sampleRun
      (Event.progress "id-1" 500 1000 50 "0 B/s") (by decide) "id-1" 500 1000 50 "0 B/s" rfl,
   c7_progress_sentinel_range_amended sampleOverRun
      (Event.progress "id-3" 150 100 150 "0 B/s") (by decide) "id-3" 150 100 150 "0 B/s" rfl⟩

/-- C8 counterexample: after a write-stream error the transfer entry is
deleted from the registry, so no entry with status `failed` exists — the
code never records a `failed` status, contradicting the conjunct of the
claim that says the status is set to failed. -/
theorem c8_failed_status_counterexample :
    (runTransfer sampleErrRun).entry = none ∧
    (runTransfer sampleErrRun).entry.map Entry.status ≠ some Status.failed := by
  exact ⟨rfl, by decide⟩

/-- C8 amended: on a write-stream error, exactly one `download-error`
event with the generic message `Failed to save file` is emitted as the
terminal event, the partial file is handed to `fs.unlink` whose missing
file (`ENOENT`) failure is not itself reported, and the transfer is
removed from the active set — its record is deleted rather than retained
with a failed status. -/
theorem c8_write_error_cleanup_amended (r : Run) (res : Option String)
    (hw : r.writeFails = true) :
    (runTransfer r).events = Event.started r.downloadId r.filename r.fileSize ::
      progressEvents r.downloadId r.fileSize r.speeds r.chunks 0 0 0 ++
      [Event.error r.downloadId "Failed to save file"] ∧
    (((runTransfer r).events).filter Event.isError).length = 1 ∧
    (runTransfer r).entry = none ∧
    (runTransfer r).unlinked = [mkFilePath r] ∧
    (cleanupReportsError res = true ↔ ∃ code, res = some code ∧ code ≠ "ENOENT") := by
  have hout : runTransfer r =
      { events := Event.started r.downloadId r.filename r.fileSize ::
          progressEvents r.downloadId r.fileSize r.speeds r.chunks 0 0 0 ++
          [Event.error r.downloadId "Failed to save file"],
        entry := none, unlinked := [mkFilePath r] } := by
    rw [runTransfer, if_pos hw]
  refine ⟨by rw [hout], ?_, by rw [hout], by rw [hout], ?_⟩
  · rw [hout]
    have hps : (progressEvents r.downloadId r.fileSize r.speeds
        r.chunks 0 0 0).filter Event.isError = [] := by
      rw [List.filter_eq_nil_iff]
      intro e he
      have := (not_other_of_isProgress e
        (isProgress_of_mem_progressEvents _ _ _ _ e he)).1
      simp [this]
    rw [show (Event.started r.downloadId r.filename r.fileSize ::
        progressEvents r.downloadId r.fileSize r.speeds r.chunks 0 0 0 ++
        [Event.error r.downloadId "Failed to save file"]).filter Event.isError =
      (progressEvents r.downloadId r.fileSize r.speeds r.chunks 0 0 0 ++
        [Event.error r.downloadId "Failed to save file"]).filter Event.isError from rfl]
    rw [List.filter_append, hps]
    rfl
  · cases res with
    | none => simp [cleanupReportsError]
    | some code =>
        simp [cleanupReportsError, bne_iff_ne]

/-- Witness for C8 at a concrete erroring run with a concrete unlink
failure code. -/
theorem c8_write_error_cleanup_amended_witness :
    (runTransfer sampleErrRun).events = Event.started "id-4" "report.pdf" 1000 ::
      progressEvents "id-4" 1000 speedsZero [500] 0 0 0 ++
      [Event.error "id-4" "Failed to save file"] ∧
    (((runTransfer sampleErrRun).events).filter Event.isError).length = 1 ∧
    (runTransfer sampleErrRun).entry = none ∧
    (runTransfer sampleErrRun).unlinked = [mkFilePath sampleErrRun] ∧
    (cleanupReportsError (some "EACCES") = true ↔
      ∃ code, (some "EACCES" : Option String) = some code ∧ code ≠ "ENOENT") :=
  c8_write_error_cleanup_amended sampleErrRun (some "EACCES") rfl

/-- C9 counterexample: the `disconnect` handler leaves a mid-flight
downloading transfer untouched and performs only a log action — no stream
abort, no file close or unlink, no registry change — contradicting the
claim that on disconnect the engine stops streaming and discards partial
data. -/
theorem c9_disconnect_noop_counterexample :
    (onSocketDisconnect sampleActive "sock-1").1 = sampleActive ∧
    (onSocketDisconnect sampleActive "sock-1").2 =
      [SocketAction.log "Client disconnected: sock-1"] ∧
    (initialEntry sampleRun).status = Status.downloading := by
  exact ⟨rfl, rfl, rfl⟩

/-- C9 amended: on disconnect of the originating channel the engine
performs no cleanup at all: the handler only logs, leaving the active
registry and every in-flight stream untouched, and the transfer continues
to completion or failure on its own. -/
theorem c9_disconnect_no_cleanup_amended (active : List (String × Entry)) (sid : String) :
    (onSocketDisconnect active sid).1 = active ∧
    (onSocketDisconnect active sid).2 =
      [SocketAction.log ("Client disconnected: " ++ sid)] :=
  ⟨rfl, rfl⟩

/-- C3: the range-serving endpoint answers a request without a `Range`
header with 200, the full byte count as `Content-Length`, octet-stream
content type, an attachment disposition and the full body; a request for
`bytes=0-99` on a 1000-byte stored file with 206, `Content-Range`
`bytes 0-99/1000`, `Content-Length` 100 and the first 100 bytes; and a
request for a missing file with 404 and a plain not-found body. -/
theorem c3_range_endpoint_behavior (files : String → Option (List Nat))
    (fname : String) (content : List Nat) (rg : Option String) :
    (files fname = some content →
      serveDownload files fname none =
        { status := 200, contentLength := some (content.length : Int), contentRange := none,
          contentType := some "application/octet-stream",
          contentDisposition := some ("attachment; filename=\"" ++ fname ++ "\""),
          acceptRanges := some "bytes", body := DlBody.bytes content } ∧
      (content.length = 1000 →
        serveDownload files fname (some "bytes=0-99") =
          { status := 206, contentLength := some 100,
            contentRange := some "bytes 0-99/1000",
            contentType := some "application/octet-stream",
            contentDisposition := some ("attachment; filename=\"" ++ fname ++ "\""),
            acceptRanges := some "bytes", body := DlBody.bytes (content.take 100) })) ∧
    (files fname = none →
      serveDownload files fname rg =
        { status := 404, contentLength := none, contentRange := none, contentType := none,
          contentDisposition := none, acceptRanges := none,
          body := DlBody.text "File not found" }) := by
  constructor
  · intro hf
    constructor
    · simp only [serveDownload, hf]
    · intro hlen
      have h1 : splitDash (removeBytesEq "bytes=0-99") = ["0", "99"] := rfl
      have h2 : parseIntJs "0" = some 0 := rfl
      have h3 : parseIntJs "99" = some 99 := rfl
      simp only [serveDownload, hf, h1, h2, h3]
      simp only [List.headD_cons, List.getElem?_cons_succ, List.getElem?_cons_zero, h3]
      norm_num [DlResponse.mk.injEq, sliceStream, hlen]
      rw [if_neg (show ¬("99" : String) = "" by decide), h2]
      norm_num
      refine ⟨by decide, ?_⟩
      rw [show Int.toNat 100 = 100 from rfl]
  · intro hf
    simp only [serveDownload, hf]

set_option maxRecDepth 10000 in
/-- Witness for C3 on a concrete 1000-byte stored file. -/
theorem c3_range_endpoint_behavior_witness :
    (serveDownload sampleFiles "f.bin" none =
      { status := 200, contentLength := some 1000, contentRange := none,
        contentType := some "application/octet-stream",
        contentDisposition := some "attachment; filename=\"f.bin\"",
        acceptRanges := some "bytes", body := DlBody.bytes (List.replicate 1000 7) }) ∧
    (serveDownload sampleFiles "f.bin" (some "bytes=0-99") =
      { status := 206, contentLength := some 100,
        contentRange := some "bytes 0-99/1000",
        contentType := some "application/octet-stream",
        contentDisposition := some "attachment; filename=\"f.bin\"",
        acceptRanges := some "bytes", body := DlBody.bytes (List.replicate 100 7) }) ∧
    (serveDownload sampleFiles "missing.bin" (some "bytes=0-99") =
      { status := 404, contentLength := none, contentRange := none, contentType := none,
        contentDisposition := none, acceptRanges := none,
        body := DlBody.text "File not found" }) := by
  have h1 := (c3_range_endpoint_behavior sampleFiles "f.bin" (List.replicate 1000 7)
    none).1 (by rfl)
  have h2 := (c3_range_endpoint_behavior sampleFiles "missing.bin" [] (some "bytes=0-99")).2
    (by rfl)
  refine ⟨h1.1.trans (by decide), (h1.2 (by decide)).trans (by decide), h2⟩

/-- The quoted regex alternative closes at the appended quote when the
content holds neither the quote nor a newline. -/
theorem findClose_append (q : Char) (l : List Char)
    (h : ∀ c ∈ l, ¬(c = q ∨ c = '\n')) : findClose q (l ++ [q]) = some l := by
  induction l with
  | nil => simp [findClose]
  | cons c cs ih =>
      have hc := h c (List.mem_cons_self c cs)
      push_neg at hc
      rw [List.cons_append, findClose]
      rw [if_neg (by simp [hc.1]), if_neg (by simp [hc.2])]
      rw [ih (fun x hx => h x (List.mem_cons_of_mem c hx))]
      rfl

/-- Quote stripping leaves a quote-free string unchanged. -/
theorem stripQuotesList_self (l : List Char)
    (h : ∀ c ∈ l, ¬(c = quoteD ∨ c = quoteS)) : stripQuotesList l = l := by
  rw [stripQuotesList, List.filter_eq_self]
  intro c hc
  have := h c hc
  push_neg at this
  simp [this.1, this.2]

/-- The synthesized identifier fragment has exactly eight characters. -/
theorem uuid8_length (seed : Nat) : (uuid8 seed).length = 8 := by
  simp [uuid8, String.length]

/-- Every rendered hex digit is a hex character. -/
theorem hexDigitVal_toHexDigit : ∀ m : Nat, m < 16 → (hexDigitVal (toHexDigit m)).isSome = true := by
  decide

/-- Every character of the synthesized identifier fragment is a
hexadecimal digit. -/
theorem uuid8_hex (seed : Nat) : ∀ c ∈ (uuid8 seed).data, (hexDigitVal c).isSome = true := by
  intro c hc
  simp only [uuid8, List.mem_map] at hc
  obtain ⟨i, _, hi⟩ := hc
  rw [← hi]
  exact hexDigitVal_toHexDigit _ (Nat.mod_lt _ (by omega))

/-- C4 amended: a filename supplied by a Content-Disposition header is
returned with all quote characters removed (surrounding and interior
ones: the code strips globally, not only the surrounding pair); with no
usable header parameter, the percent-decoded last URL path segment is
returned when it is non-empty, not `/` and decodes cleanly; otherwise the
result is `download_` followed by exactly eight hexadecimal characters.
Every platform parse failure enters the model as a `none`/failed input,
and `getFilename` is a total function on all of them, so it never
throws. -/
theorem c4_filename_resolution_amended (cd pn : Option String) (seed : Nat) (name : String) :
    ((∀ c ∈ name.data, ¬(c = quoteD ∨ c = quoteS ∨ c = '\n')) → name.data ≠ [] →
      getFilename (some ("filename=\"" ++ name ++ "\"")) pn seed = name) ∧
    (∀ s g, cd = some s → s.data ≠ [] → cdScan s.data = some g → g ≠ [] →
      getFilename cd pn seed = String.mk (stripQuotesList g)) ∧
    (∀ p d, headerFilename cd = none → pn = some p →
      basenamePosix p ≠ "" → basenamePosix p ≠ "/" →
      decodeURIComponentM (basenamePosix p) = some d →
      getFilename cd pn seed = d) ∧
    (headerFilename cd = none → urlFilename pn = none →
      getFilename cd pn seed = "download_" ++ uuid8 seed) ∧
    ((uuid8 seed).length = 8 ∧ ∀ c ∈ (uuid8 seed).data, (hexDigitVal c).isSome = true) := by
  refine ⟨?_, ?_, ?_, ?_, uuid8_length seed, uuid8_hex seed⟩
  · intro hfree hne
    have hdata : ("filename=\"" ++ name ++ "\"").data =
        ['f', 'i', 'l', 'e', 'n', 'a', 'm', 'e', '=', '"'] ++ (name.data ++ ['"']) := by
      simp [String.data_append]
    have hfind : findClose '"' (name.data ++ ['"']) = some name.data :=
      findClose_append '"' name.data
        (fun c hc h => (hfree c hc) (by
          rcases h with h | h
          · exact Or.inl (by rw [h]; decide)
          · exact Or.inr (Or.inr h)))
    have hscan : cdScan (("filename=\"" ++ name ++ "\"").data) =
        some (('"' :: name.data) ++ ['"']) := by
      rw [hdata]
      show cdScan ('f' :: (['i', 'l', 'e', 'n', 'a', 'm', 'e', '=', '"'] ++
        (name.data ++ ['"']))) = _
      rw [cdScan]
      rw [show afterFilenameLit ('f' :: (['i', 'l', 'e', 'n', 'a', 'm', 'e', '=', '"'] ++
        (name.data ++ ['"']))) = some ('=' :: '"' :: (name.data ++ ['"'])) from rfl]
      show (match groupAt ('=' :: '"' :: (name.data ++ ['"'])) with
        | some g => some g
        | none => cdScan (['i', 'l', 'e', 'n', 'a', 'm', 'e', '=', '"'] ++
            (name.data ++ ['"']))) = _
      rw [show groupAt ('=' :: '"' :: (name.data ++ ['"'])) =
        some (matchGroup ('"' :: (name.data ++ ['"']))) from rfl]
      show some (matchGroup ('"' :: (name.data ++ ['"']))) =
        some (('"' :: name.data) ++ ['"'])
      rw [matchGroup]
      rw [if_pos (show (('"' : Char) == quoteD || ('"' : Char) == quoteS) = true by decide)]
      rw [hfind]
    have hstrip : stripQuotesList (('"' :: name.data) ++ ['"']) = name.data := by
      rw [stripQuotesList, List.filter_append, List.filter_cons]
      rw [if_neg (show ¬((!(('"' : Char) == quoteD || ('"' : Char) == quoteS)) = true) by decide)]
      rw [show List.filter (fun c => !(c == quoteD || c == quoteS)) ['"'] = [] from by decide]
      rw [show List.filter (fun c => !(c == quoteD || c == quoteS)) name.data =
        stripQuotesList name.data from rfl]
      rw [stripQuotesList_self name.data
        (fun c hc h => (hfree c hc) (by
          rcases h with h | h
          · exact Or.inl h
          · exact Or.inr (Or.inl h)))]
      simp
    have hh : headerFilename (some ("filename=\"" ++ name ++ "\"")) = some name := by
      rw [headerFilename]
      rw [if_neg (show ¬(("filename=\"" ++ name ++ "\"").data = []) by
        rw [hdata]; simp)]
      rw [hscan]
      show (if (('"' :: name.data) ++ ['"'] : List Char) = [] then none
        else some (String.mk (stripQuotesList (('"' :: name.data) ++ ['"'])))) = some name
      rw [if_neg (by simp), hstrip]
    rw [getFilename, hh]
  · intro s g hcd hs hscan hg
    subst hcd
    have hh : headerFilename (some s) = some (String.mk (stripQuotesList g)) := by
      rw [headerFilename, if_neg hs, hscan]
      show (if g = [] then none else some (String.mk (stripQuotesList g))) =
        some (String.mk (stripQuotesList g))
      rw [if_neg hg]
    rw [getFilename, hh]
  · intro p d hh hpn hb1 hb2 hdec
    subst hpn
    have hu : urlFilename (some p) = some d := by
      rw [urlFilename]
      rw [if_neg (by simp [hb1, hb2])]
      exact hdec
    rw [getFilename, hh, hu]
  · intro hh hu
    rw [getFilename, hh, hu]

/-- C4 counterexample: for the header value `attachment; filename=a"b`
the resolver returns `ab` — the interior quote is removed as well — not
the verbatim parameter `a"b` with only surrounding quotes stripped.  The
claim as stated is false on this input. -/
theorem c4_filename_quotes_counterexample :
    getFilename (some "attachment; filename=a\"b") none 0 = "ab" ∧
    getFilename (some "attachment; filename=a\"b") none 0 ≠ "a\"b" := by
  exact ⟨rfl, by decide⟩

/-- Witness for C4 at concrete inputs exercising all tiers. -/
theorem c4_filename_resolution_amended_witness :
    getFilename (some "filename=\"report.pdf\"") none 0 = "report.pdf" ∧
    getFilename (some "attachment; filename=data.bin") none 3 =
      String.mk (stripQuotesList "data.bin".data) ∧
    getFilename none (some "/files/doc%20one.txt") 5 = "doc one.txt" ∧
    getFilename none (some "/") 7 = "download_" ++ uuid8 7 ∧
    ((uuid8 7).length = 8 ∧ ∀ c ∈ (uuid8 7).data, (hexDigitVal c).isSome = true) :=
  ⟨(c4_filename_resolution_amended (some "filename=\"report.pdf\"") none 0 "report.pdf").1 (by decide) (by decide),
   (c4_filename_resolution_amended (some "attachment; filename=data.bin") none 3 "x").2.1
     "attachment; filename=data.bin" "data.bin".data rfl (by decide) (by decide) (by decide),
   (c4_filename_resolution_amended none (some "/files/doc%20one.txt") 5 "x").2.2.1
     "/files/doc%20one.txt" "doc one.txt" rfl rfl (by decide) (by decide) (by decide),
   (c4_filename_resolution_amended none (some "/") 7 "x").2.2.2.1 rfl rfl,
   (c4_filename_resolution_amended none none 7 "x").2.2.2.2⟩
